import Mathlib

/-!
Verification of the command-interpretation and reading-session core of the
Smart-assistant-for-task-automation repository (src/app3.py), shallowly
embedded in Lean. Python text is modelled as a list of characters; the
module-global session (current_file_content, read_position,
translation_language) is modelled as an explicit state record threaded
through the handlers; the external collaborators (file system, moviepy,
pytube, speech recognition, googletrans Translator) are modelled as
function-valued parameters whose fallible calls return Except values.
Response message strings and URL payload fields are not modelled: no
verified property depends on them.
-/

/-- Python text, modelled as its list of characters. -/
abbrev Str := List Char

/-- Python str.lower, on the ASCII command strings this program handles. -/
def lowerStr (s : Str) : Str := s.map Char.toLower

/-- Python str.strip with no argument: remove leading and trailing whitespace. -/
def stripStr (s : Str) : Str :=
  ((s.dropWhile Char.isWhitespace).reverse.dropWhile Char.isWhitespace).reverse

/-- Index of the first occurrence of pat in the subject string (Python str.find),
none when pat does not occur. -/
def findSub (pat : Str) : Str → Option Nat
  | [] => if pat.isEmpty then some 0 else none
  | c :: rest =>
    if pat.isPrefixOf (c :: rest) then some 0
    else (findSub pat rest).map (· + 1)

/-- Python substring containment, the expression pat in s. -/
def containsSub (s pat : Str) : Bool := (findSub pat s).isSome

/-- Second half of Python s.split(pat, 1): the text after the first occurrence
of pat (empty when pat does not occur; callers guard on containment). -/
def afterFirst (s pat : Str) : Str :=
  match findSub pat s with
  | some i => s.drop (i + pat.length)
  | none => []

/-- First half of Python s.split(pat, 1): the text before the first occurrence
of pat, or s itself when pat does not occur. -/
def beforeFirst (s pat : Str) : Str :=
  match findSub pat s with
  | some i => s.take i
  | none => s

/-- Fuel-indexed worker for splitAll; the fuel bound s.length + 1 suffices for
the non-empty separators this program splits on. -/
def splitAllAux (pat : Str) : Nat → Str → List Str
  | 0, s => [s]
  | fuel + 1, s =>
    match findSub pat s with
    | none => [s]
    | some i => s.take i :: splitAllAux pat fuel (s.drop (i + pat.length))

/-- Python s.split(pat) with a non-empty separator pat: split at every
occurrence, keeping empty pieces. -/
def splitAll (s pat : Str) : List Str := splitAllAux pat (s.length + 1) s

/-- Fuel-indexed worker for replaceAll. -/
def replaceAllAux (pat rep : Str) : Nat → Str → Str
  | 0, s => s
  | _ + 1, [] => []
  | fuel + 1, c :: rest =>
    if !pat.isEmpty && pat.isPrefixOf (c :: rest) then
      rep ++ replaceAllAux pat rep fuel ((c :: rest).drop pat.length)
    else
      c :: replaceAllAux pat rep fuel rest

/-- Python s.replace(pat, rep) for a non-empty pattern: replace every
occurrence, scanning left to right. -/
def replaceAll (s pat rep : Str) : Str := replaceAllAux pat rep (s.length + 1) s

/-- Worker for pyWords, accumulating the current word reversed. -/
def pyWordsAux : Str → Str → List Str
  | [], acc => if acc.isEmpty then [] else [acc.reverse]
  | c :: rest, acc =>
    if c.isWhitespace then
      if acc.isEmpty then pyWordsAux rest [] else acc.reverse :: pyWordsAux rest []
    else pyWordsAux rest (c :: acc)

/-- Python s.split() with no argument: split on whitespace runs, no empty
pieces. -/
def pyWords (s : Str) : List Str := pyWordsAux s []

/-- Python " ".join(words). -/
def joinSpace (ws : List Str) : Str := List.intercalate [' '] ws

/-- Python s.rstrip(".") as used on filename candidates. -/
def rstripDots (s : Str) : Str := (s.reverse.dropWhile (· == '.')).reverse

/-- Index of the last dot in a name, used by splitext_ext. -/
def lastDotIdx (s : Str) : Option Nat :=
  match s.reverse.findIdx? (· == '.') with
  | some k => some (s.length - 1 - k)
  | none => none

/-- Extension part of Python os.path.splitext applied to a bare filename: the
suffix from the last dot, unless every character before that dot is itself a
dot (leading-dot names such as ".mp4" have no extension). -/
def splitext_ext (s : Str) : Str :=
  match lastDotIdx s with
  | none => []
  | some d => if (s.take d).any (fun c => c != '.') then s.drop d else []

/-- SUPPORTED_EXTENSIONS from app3.py, in tuple order. -/
def SUPPORTED_EXTENSIONS : List Str :=
  [".txt".toList, ".pdf".toList, ".docx".toList, ".pptx".toList, ".mp4".toList,
   ".mov".toList, ".avi".toList, ".mkv".toList, ".wmv".toList]

/-- The language registry table, name for each code, in insertion order. The
repository imports the googletrans LANGUAGES table when that library is
available; the registry bundled with the repository itself is the fallback
table defined in src/voice_assistant_with_youtube_transcription.py line 45
(the full googletrans table is an external library constant, outside this
repository), so that in-repository table is the one embedded here. -/
def LANGUAGES : List (Str × Str) :=
  [("en".toList, "english".toList), ("es".toList, "spanish".toList),
   ("fr".toList, "french".toList), ("de".toList, "german".toList),
   ("hi".toList, "hindi".toList)]

/-- get_language_code from app3.py: the first code in the registry whose name
matches the given name case-insensitively, none when no name matches. -/
def get_language_code (language_name : Str) : Option Str :=
  (LANGUAGES.find? (fun p => lowerStr p.2 == lowerStr language_name)).map (·.1)

/-- Filename-removal preprocessing at the top of extract_language_codes: cut
the command just before the first supported extension occurring in it. -/
def clean_command_of (command : Str) : Str :=
  match SUPPORTED_EXTENSIONS.find? (fun ext => containsSub command ext) with
  | some ext => stripStr (beforeFirst command ext)
  | none => command

/-- Step 1 of extract_language_codes: explicit target language, the words
after "translate to" up to a literal word "from", looked up in the registry. -/
def explicit_target (clean_command : Str) : Option Str :=
  if containsSub clean_command "translate to".toList then
    let parts := pyWords (stripStr (afterFirst clean_command "translate to".toList))
    let target_name_parts := parts.takeWhile (fun p => p != "from".toList)
    get_language_code (joinSpace target_name_parts)
  else none

/-- Step 2 of extract_language_codes: explicit source language, probing the
1-word, 2-word, then 3-word run after "from" against the registry. -/
def explicit_source (clean_command : Str) : Option Str :=
  if containsSub clean_command "from".toList then
    let parts := pyWords (stripStr (afterFirst clean_command "from".toList))
    (List.range (min 3 parts.length)).findSome?
      (fun i => get_language_code (joinSpace (parts.take (i + 1))))
  else none

/-- extract_language_codes from app3.py. The Python function reads the module
global translation_language to default the target code (step 3), so the
embedding takes that session value as its first argument. Steps follow the
numbered comments of the source: explicit target, explicit source, global
default for the target, the Hindi regional upgrade, and the "en" source
fallback for transcription. -/
def extract_language_codes (translation_language : Str) (command0 : Str) :
    Option Str × Option Str :=
  let command := lowerStr command0
  let clean_command := clean_command_of command
  let target_code := explicit_target clean_command
  let source_code := explicit_source clean_command
  let target_code :=
    if target_code.isNone &&
        (containsSub command "transcribe".toList || containsSub command "translate".toList) then
      some translation_language
    else target_code
  let source_code :=
    if source_code == some "hi".toList ||
        (containsSub command "transcribe".toList && source_code.isNone) then
      if containsSub command "hindi".toList || containsSub command "hinglish".toList then
        some "hi-IN".toList
      else source_code
    else source_code
  let source_code :=
    if source_code.isNone && containsSub command "transcribe".toList then
      some "en".toList
    else source_code
  (target_code, source_code)

/-- The ordered trigger-keyword list of extract_filename_from_command. -/
def file_keywords : List Str :=
  ["open".toList, "read".toList, "play".toList, "transcribe".toList, "file".toList,
   "document".toList, "video".toList, "docx".toList, "pdf".toList, "pptx".toList,
   "txt".toList, "mp4".toList, "mov".toList, "avi".toList, "mkv".toList, "wmv".toList]

/-- One iteration of the keyword loop in extract_filename_from_command: if the
keyword occurs, take the text after its first occurrence, truncate at each
boundary phrase, and accept it when it contains a dot and is longer than 3. -/
def filename_candidate_of (command kw : Str) : Option Str :=
  match findSub kw command with
  | none => none
  | some i =>
    let candidate := stripStr (command.drop (i + kw.length))
    let candidate := [" and ".toList, " to ".toList, " in ".toList, " from ".toList].foldl
      (fun c sep => beforeFirst c sep) candidate
    if containsSub candidate ".".toList ∧ 3 < candidate.length then
      some (rstripDots (stripStr candidate))
    else none

/-- extract_filename_from_command from app3.py: normalize spoken punctuation,
then return the first accepted candidate over the ordered keyword list. -/
def extract_filename_from_command (command0 : Str) : Option Str :=
  let command := lowerStr command0
  let command := replaceAll command " dot ".toList ".".toList
  let command := replaceAll command " point ".toList ".".toList
  let command := replaceAll command " mp 4".toList " mp4".toList
  file_keywords.findSome? (fun kw => filename_candidate_of command kw)

/-- The leading trigger phrases stripped by extract_youtube_query. -/
def youtube_triggers : List Str :=
  ["play ".toList, "search for ".toList, "search ".toList, "find ".toList,
   "show ".toList, "watch ".toList, "transcribe ".toList, "translate ".toList]

/-- extract_youtube_query from app3.py: strip one leading trigger phrase, one
trailing youtube phrase, every "to name" and "from name" fragment for each
registry language, collapse " and " and " with ", and normalize whitespace. -/
def extract_youtube_query (command0 : Str) : Option Str :=
  let command := stripStr (lowerStr command0)
  let command :=
    match youtube_triggers.find? (fun t => t.isPrefixOf command) with
    | some t => stripStr (command.drop t.length)
    | none => command
  let command :=
    if "on youtube".toList.isSuffixOf command then stripStr (command.take (command.length - 10))
    else if "in youtube".toList.isSuffixOf command then stripStr (command.take (command.length - 10))
    else if "youtube".toList.isSuffixOf command then stripStr (command.take (command.length - 7))
    else command
  let command := LANGUAGES.foldl (fun cmd p =>
    let toPhrase := "to ".toList ++ lowerStr p.2
    let fromPhrase := "from ".toList ++ lowerStr p.2
    let cmd := if containsSub cmd toPhrase then stripStr (replaceAll cmd toPhrase []) else cmd
    if containsSub cmd fromPhrase then stripStr (replaceAll cmd fromPhrase []) else cmd) command
  let command :=
    stripStr (replaceAll (replaceAll command " and ".toList " ".toList) " with ".toList " ".toList)
  if command.isEmpty then none else some (joinSpace (pyWords command))

/-- Response statuses used by app3.py, plus the two read_chunk statuses. -/
inductive Status
  | success | error | info | action | reading | done
deriving DecidableEq

/-- The process-wide reading-session state: the module globals
current_file_content, read_position and translation_language of app3.py. -/
structure Session where
  current_file_content : Str
  read_position : Nat
  translation_language : Str
deriving DecidableEq

/-- The initial global state of app3.py: INITIAL_FILE_CONTENT,
INITIAL_READ_POSITION, INITIAL_TRANSLATION_LANGUAGE. -/
def initial_session : Session := ⟨[], 0, "en".toList⟩

/-- A command response. Only the fields verified properties read are kept:
status, the client action tag, and the has_content flag (none until a branch
attaches it). Message text and URL payloads are not modelled. -/
structure Response where
  status : Status
  action : Option Str := none
  has_content : Option Bool := none
deriving DecidableEq

/-- The response shape of the read_chunk endpoint. The progress field models
the Python float truncation int((pos / len) * 100) as Nat division; no
verified property reads it. -/
structure ChunkResult where
  status : Status
  chunk : Str
  progress : Option Nat
deriving DecidableEq

/-- The googletrans Translator collaborator: translate (text, dest) and
detect. An error value models the Python call raising an exception. -/
structure Translator where
  translate : Str → Str → Except Unit Str
  detect : Str → Except Unit Str

/-- Outcome of handing a media file to the host desktop in handle_open_file:
opened (startfile or xdg-open returned), unsupported (neither nt nor posix),
or failed (the call raised). -/
inductive OpenOutcome
  | opened | unsupported | failed
deriving DecidableEq

/-- The remaining external collaborators of app3.py, as one record: library
availability flags, the file system, and the fallible steps of the two
transcription pipelines. An Except error models the Python step raising. -/
structure Collab where
  moviepy_available : Bool
  pytube_available : Bool
  requests_available : Bool
  file_exists : Str → Bool
  extract_content : Str → Except Unit Str
  open_media : OpenOutcome
  extract_audio : Except Unit Unit
  recognize : Str → Except Unit Str
  search_youtube : Str → Option Str
  yt_create : Except Unit Unit
  audio_stream : Option Str
  download_ok : Except Unit Bool
  recognize_yt : Str → Except Unit Str
  parse_rate_ok : Str → Bool

/-- handle_reset_command from app3.py: clear content and cursor (the target
language is not reassigned) and answer success, stop_read, has_content false. -/
def handle_reset_command (s : Session) : Response × Session :=
  (⟨Status.success, some "stop_read".toList, some false⟩,
   { s with current_file_content := [], read_position := 0 })

/-- get_next_chunk from app3.py: done when no content, done (clamping the
cursor to the length) when the cursor is at or past the end, otherwise the
substring from the cursor to min(cursor + chunk_size, length), translated
when the target language differs from en with a raising translator degrading
to the original substring, advancing the cursor to the chunk end. -/
def get_next_chunk (tr : Translator) (chunk_size : Nat) (s : Session) :
    ChunkResult × Session :=
  if s.current_file_content.isEmpty then
    (⟨Status.done, [], none⟩, s)
  else if s.current_file_content.length ≤ s.read_position then
    (⟨Status.done, [], none⟩, { s with read_position := s.current_file_content.length })
  else
    let chunk_end := min (s.read_position + chunk_size) s.current_file_content.length
    let original_chunk :=
      (s.current_file_content.drop s.read_position).take (chunk_end - s.read_position)
    let translated_chunk :=
      if s.translation_language ≠ "en".toList then
        match tr.translate original_chunk s.translation_language with
        | Except.ok t => t
        | Except.error _ => original_chunk
      else original_chunk
    (⟨Status.reading, translated_chunk,
      some (chunk_end * 100 / s.current_file_content.length)⟩,
     { s with read_position := chunk_end })

/-- The session after n calls to get_next_chunk. -/
def iterChunk (tr : Translator) (chunk_size : Nat) (s : Session) : Nat → Session
  | 0 => s
  | n + 1 => (get_next_chunk tr chunk_size (iterChunk tr chunk_size s n)).2

/-- handle_translation_command from app3.py: the text after the last "to"
names the new target language; an unknown name is an error, a command with
no "to" reports the current language. -/
def handle_translation_command (command : Str) (s : Session) : Response × Session :=
  let parts := splitAll command "to".toList
  if 1 < parts.length then
    let lang_name := stripStr (parts.getLastD [])
    match get_language_code lang_name with
    | some code => (⟨Status.success, none, none⟩, { s with translation_language := code })
    | none => (⟨Status.error, none, none⟩, s)
  else (⟨Status.info, none, none⟩, s)

/-- handle_control_command from app3.py. The reading-speed float parse is
modelled by the parse_rate_ok oracle since only its success is observable
here. Only restart mutates the session, and only when content is loaded. -/
def handle_control_command (co : Collab) (command : Str) (s : Session) :
    Response × Session :=
  if "set reading speed to".toList.isPrefixOf command then
    let rate_str := stripStr ((splitAll command "to".toList).getLastD [])
    if co.parse_rate_ok rate_str then (⟨Status.action, some "set_rate".toList, none⟩, s)
    else (⟨Status.error, none, none⟩, s)
  else if command = "restart".toList then
    if s.current_file_content.isEmpty then (⟨Status.info, none, none⟩, s)
    else (⟨Status.action, some "start_read".toList, none⟩, { s with read_position := 0 })
  else if command = "resume".toList then
    if s.current_file_content.isEmpty then (⟨Status.info, none, none⟩, s)
    else if s.current_file_content.length ≤ s.read_position then
      (⟨Status.info, none, none⟩, s)
    else (⟨Status.action, some "start_read".toList, none⟩, s)
  else if command = "stop".toList ∨ command = "pause".toList then
    (⟨Status.info, none, none⟩, s)
  else (⟨Status.info, none, none⟩, s)

/-- handle_web_action_command from app3.py: order and search commands produce
an open_url action (destination text not modelled); other commands fall
through with none. The session is never touched. -/
def handle_web_action_command (question : Str) : Option Response :=
  if containsSub question "order".toList then
    let item := stripStr (replaceAll (replaceAll question "order".toList []) "online".toList [])
    if containsSub item "pizza".toList then some ⟨Status.action, some "open_url".toList, none⟩
    else if containsSub item "book".toList then some ⟨Status.action, some "open_url".toList, none⟩
    else if !item.isEmpty then some ⟨Status.action, some "open_url".toList, none⟩
    else some ⟨Status.info, none, none⟩
  else if containsSub question "search".toList then
    let query := stripStr (replaceAll (replaceAll question "search".toList []) "web".toList [])
    if !query.isEmpty then some ⟨Status.action, some "open_url".toList, none⟩
    else some ⟨Status.info, none, none⟩
  else none

/-- handle_youtube_command from app3.py: none when no query can be extracted;
otherwise an error without the requests library, an embedded-player action
when the search finds a video id, and a search-page action otherwise. -/
def handle_youtube_command (co : Collab) (command : Str) : Option Response :=
  match extract_youtube_query command with
  | none => none
  | some query =>
    if !co.requests_available then some ⟨Status.error, none, none⟩
    else
      match co.search_youtube query with
      | some _ => some ⟨Status.action, some "play_youtube_embedded".toList, none⟩
      | none => some ⟨Status.action, some "play_youtube".toList, none⟩

/-- transcribe_video_audio from app3.py: missing moviepy, a raising audio
extraction, a raising or empty recognition, a raising detection, a raising
translation (run only when the detected language differs from the target),
or an empty final text each return an error with the session untouched; only
the all-steps-succeeded path loads the final text at cursor 0 with the
requested target language. The temporary-file cleanup of the source has no
session effect and is not modelled. -/
def transcribe_video_audio (co : Collab) (tr : Translator)
    (_file_name target source : Str) (s : Session) : Response × Session :=
  if !co.moviepy_available then (⟨Status.error, none, none⟩, s)
  else
    match co.extract_audio with
    | Except.error _ => (⟨Status.error, none, none⟩, s)
    | Except.ok _ =>
      match co.recognize source with
      | Except.error _ => (⟨Status.error, none, none⟩, s)
      | Except.ok transcribed_text =>
        if transcribed_text.isEmpty then (⟨Status.error, none, none⟩, s)
        else
          match tr.detect transcribed_text with
          | Except.error _ => (⟨Status.error, none, none⟩, s)
          | Except.ok actual_source =>
            match (if actual_source ≠ target then tr.translate transcribed_text target
                   else Except.ok transcribed_text) with
            | Except.error _ => (⟨Status.error, none, none⟩, s)
            | Except.ok final_content =>
              if final_content.isEmpty then (⟨Status.error, none, none⟩, s)
              else (⟨Status.success, some "start_read".toList, none⟩,
                    ⟨final_content, 0, target⟩)

/-- transcribe_youtube_audio_real from app3.py: missing pytube or requests, a
failed search, a raising pytube construction, a missing audio-only stream, a
failed or raising download, a raising or empty recognition, a raising
detection, or a raising translation each return an error with the session
untouched; the success path loads the final text at cursor 0 with the
requested target language (this path has no emptiness check on the final
text). Temporary-file cleanup has no session effect and is not modelled. -/
def transcribe_youtube_audio_real (co : Collab) (tr : Translator)
    (query target _source2 : Str) (s : Session) : Response × Session :=
  if !co.pytube_available then (⟨Status.error, none, none⟩, s)
  else if !co.requests_available then (⟨Status.error, none, none⟩, s)
  else
    match co.search_youtube query with
    | none => (⟨Status.error, none, none⟩, s)
    | some _ =>
      match co.yt_create with
      | Except.error _ => (⟨Status.error, none, none⟩, s)
      | Except.ok _ =>
        match co.audio_stream with
        | none => (⟨Status.error, none, none⟩, s)
        | some _ =>
          match co.download_ok with
          | Except.error _ => (⟨Status.error, none, none⟩, s)
          | Except.ok false => (⟨Status.error, none, none⟩, s)
          | Except.ok true =>
            match co.recognize_yt _source2 with
            | Except.error _ => (⟨Status.error, none, none⟩, s)
            | Except.ok transcribed_text =>
              if transcribed_text.isEmpty then (⟨Status.error, none, none⟩, s)
              else
                match tr.detect transcribed_text with
                | Except.error _ => (⟨Status.error, none, none⟩, s)
                | Except.ok actual_source =>
                  match (if actual_source ≠ target then tr.translate transcribed_text target
                         else Except.ok transcribed_text) with
                  | Except.error _ => (⟨Status.error, none, none⟩, s)
                  | Except.ok final_content =>
                    (⟨Status.success, some "start_read".toList, none⟩,
                     ⟨final_content, 0, target⟩)

/-- The TEXT_EXTRACTION_FILES group of handle_open_file. -/
def TEXT_EXTRACTION_FILES : List Str :=
  [".txt".toList, ".pdf".toList, ".docx".toList, ".pptx".toList]

/-- The MEDIA_FILES group of handle_open_file. -/
def MEDIA_FILES : List Str :=
  [".mp4".toList, ".mov".toList, ".avi".toList, ".mkv".toList, ".wmv".toList]

/-- handle_open_file from app3.py: a missing file is an error (the did-you-mean
suggestion list only affects the message and is not modelled); a media file
with "transcribe" in the command runs the local transcription pipeline with
the extracted language pair (defaulting target to the session language and
source to en); a media file otherwise is handed to the host desktop; a text
type is extracted and, when non-empty, loaded at cursor 0; anything else is
an unsupported-type error. -/
def handle_open_file (co : Collab) (tr : Translator) (file_name_raw command_text : Str)
    (s : Session) : Response × Session :=
  let file_name := stripStr file_name_raw
  if !co.file_exists file_name then (⟨Status.error, none, none⟩, s)
  else
    let file_extension := lowerStr (splitext_ext file_name)
    if file_extension ∈ MEDIA_FILES ∧ containsSub command_text "transcribe".toList then
      let tl := extract_language_codes s.translation_language command_text
      let target_lang := tl.1.getD s.translation_language
      let source_lang := tl.2.getD "en".toList
      transcribe_video_audio co tr file_name target_lang source_lang s
    else if file_extension ∈ MEDIA_FILES then
      match co.open_media with
      | OpenOutcome.opened => (⟨Status.info, none, none⟩, s)
      | OpenOutcome.unsupported => (⟨Status.info, none, none⟩, s)
      | OpenOutcome.failed => (⟨Status.error, none, none⟩, s)
    else if file_extension ∈ TEXT_EXTRACTION_FILES then
      match co.extract_content file_name with
      | Except.ok content =>
        if !content.isEmpty then
          (⟨Status.success, some "start_read".toList, none⟩,
           { s with current_file_content := content, read_position := 0 })
        else (⟨Status.error, none, none⟩, s)
      | Except.error _ => (⟨Status.error, none, none⟩, s)
    else (⟨Status.error, none, none⟩, s)

/-- The reset phrases of the dispatcher. -/
def reset_phrases : List Str :=
  ["reset".toList, "forget".toList, "clear memory".toList, "forget all".toList]

/-- The control phrases of the dispatcher. -/
def control_phrases : List Str :=
  ["restart".toList, "resume".toList, "stop".toList, "pause".toList, "continue".toList]

/-- command_handler from app3.py, the dispatcher of the POST command route:
lower-case and strip the question, snapshot has_content, then test the
branches in source order (reset, YouTube playback, YouTube transcription,
web actions, file commands, translate-to, reading controls, chit-chat).
Every branch except the YouTube-transcription one attaches the snapshot (the
file branch upgrades it to true on success); the YouTube-transcription
branch attaches whether its response action is start_read. -/
def command_handler (co : Collab) (tr : Translator) (question0 : Str) (s : Session) :
    Response × Session :=
  let question := lowerStr (stripStr question0)
  let has_content := !s.current_file_content.isEmpty
  if question ∈ reset_phrases then
    handle_reset_command s
  else
    let yt_play :=
      if (containsSub question "play".toList || containsSub question "watch".toList) &&
          containsSub question "youtube".toList &&
          !containsSub question "transcribe".toList &&
          !containsSub question "translate".toList then
        handle_youtube_command co question
      else none
    match yt_play with
    | some r => ({ r with has_content := some has_content }, s)
    | none =>
      if (containsSub question "transcribe".toList || containsSub question "translate".toList) &&
          containsSub question "youtube".toList then
        match extract_youtube_query question with
        | none => (⟨Status.error, none, some has_content⟩, s)
        | some query =>
          let tl := extract_language_codes s.translation_language question
          let target_lang := tl.1.getD s.translation_language
          let source_lang := tl.2.getD "en".toList
          let rs := transcribe_youtube_audio_real co tr query target_lang source_lang s
          ({ rs.1 with has_content := some (rs.1.action == some "start_read".toList) }, rs.2)
      else
        match handle_web_action_command question with
        | some r => ({ r with has_content := some has_content }, s)
        | none =>
          let file_branch :=
            match extract_filename_from_command question with
            | some fn =>
              if containsSub question "open".toList || containsSub question "read".toList ||
                  containsSub question "transcribe".toList ||
                  containsSub question "play".toList then
                some fn
              else none
            | none => none
          match file_branch with
          | some fn =>
            let rs := handle_open_file co tr fn question s
            let has_content2 := if rs.1.status = Status.success then true else has_content
            ({ rs.1 with has_content := some has_content2 }, rs.2)
          | none =>
            if containsSub question "translate to".toList then
              let rs := handle_translation_command question s
              let r := if has_content && (rs.1.status == Status.success) then
                         { rs.1 with action := some "start_read".toList }
                       else rs.1
              ({ r with has_content := some has_content }, rs.2)
            else if question ∈ control_phrases ∨
                "set reading speed to".toList.isPrefixOf question then
              let question2 := if question = "continue".toList then "resume".toList else question
              let rs := handle_control_command co question2 s
              ({ rs.1 with has_content := some has_content }, rs.2)
            else
              (⟨Status.info, none, some has_content⟩, s)

/-- A translator collaborator whose every call raises. -/
def trFail : Translator := ⟨fun _ _ => Except.error (), fun _ => Except.error ()⟩

/-- A collaborator record with every optional library missing and every
fallible step failing. -/
def coFail : Collab :=
  ⟨false, false, false, fun _ => false, fun _ => Except.error (), OpenOutcome.failed,
   Except.error (), fun _ => Except.error (), fun _ => none, Except.error (), none,
   Except.ok false, fun _ => Except.error (), fun _ => false⟩

/-- A collaborator record with the requests library present but pytube
missing, so a YouTube transcription fails at its first dependency check. -/
def coYtFail : Collab :=
  ⟨true, false, true, fun _ => false, fun _ => Except.error (), OpenOutcome.failed,
   Except.ok (), fun _ => Except.error (), fun _ => none, Except.ok (), none,
   Except.ok false, fun _ => Except.error (), fun _ => false⟩

/-- The session invariant of the data model: the cursor stays within the
content, and is 0 whenever the content is empty. -/
def SessionInv (s : Session) : Prop :=
  s.read_position ≤ s.current_file_content.length ∧
  (s.current_file_content = [] → s.read_position = 0)

/-- Local transcription either fails with the session untouched, or succeeds
with a start_read action and a non-empty text loaded at cursor 0. -/
theorem transcribe_video_audio_cases (co : Collab) (tr : Translator)
    (f t src : Str) (s : Session) :
    ((transcribe_video_audio co tr f t src s).1.status = Status.error ∧
     (transcribe_video_audio co tr f t src s).2 = s) ∨
    ((transcribe_video_audio co tr f t src s).1.status = Status.success ∧
     (transcribe_video_audio co tr f t src s).1.action = some "start_read".toList ∧
     ¬ (transcribe_video_audio co tr f t src s).2.current_file_content.isEmpty ∧
     (transcribe_video_audio co tr f t src s).2.read_position = 0 ∧
     (transcribe_video_audio co tr f t src s).2.translation_language = t) := by
  unfold transcribe_video_audio
  repeat' split
  all_goals first
    | exact Or.inl ⟨rfl, rfl⟩
    | (rename_i hne; exact Or.inr ⟨rfl, rfl, by simpa using hne, rfl, rfl⟩)

/-- Remote transcription either fails with the session untouched, or succeeds
with a start_read action and the final text loaded at cursor 0. -/
theorem transcribe_youtube_cases (co : Collab) (tr : Translator)
    (q t src : Str) (s : Session) :
    ((transcribe_youtube_audio_real co tr q t src s).1.status = Status.error ∧
     (transcribe_youtube_audio_real co tr q t src s).1.action = none ∧
     (transcribe_youtube_audio_real co tr q t src s).2 = s) ∨
    ((transcribe_youtube_audio_real co tr q t src s).1.status = Status.success ∧
     (transcribe_youtube_audio_real co tr q t src s).1.action = some "start_read".toList ∧
     (transcribe_youtube_audio_real co tr q t src s).2.read_position = 0 ∧
     (transcribe_youtube_audio_real co tr q t src s).2.translation_language = t) := by
  unfold transcribe_youtube_audio_real
  repeat' split
  all_goals first
    | exact Or.inl ⟨rfl, rfl, rfl⟩
    | exact Or.inr ⟨rfl, rfl, rfl, rfl⟩

/-- handle_translation_command only ever reassigns the target language. -/
theorem handle_translation_command_frame (cmd : Str) (s : Session) :
    (handle_translation_command cmd s).2.current_file_content = s.current_file_content ∧
    (handle_translation_command cmd s).2.read_position = s.read_position := by
  unfold handle_translation_command
  dsimp only
  repeat' split
  all_goals exact ⟨rfl, rfl⟩

/-- handle_control_command never changes the loaded content or the target
language, and only restart (with content loaded) moves the cursor, to 0. -/
theorem handle_control_command_frame (co : Collab) (cmd : Str) (s : Session) :
    (handle_control_command co cmd s).2.current_file_content = s.current_file_content ∧
    (handle_control_command co cmd s).2.translation_language = s.translation_language ∧
    ((handle_control_command co cmd s).2.read_position = s.read_position ∨
     (handle_control_command co cmd s).2.read_position = 0) := by
  unfold handle_control_command
  dsimp only
  repeat' split
  all_goals first
    | exact ⟨rfl, rfl, Or.inl rfl⟩
    | exact ⟨rfl, rfl, Or.inr rfl⟩

/-- Opening a file either does not report success and leaves the session
untouched, or reports success with non-empty content loaded at cursor 0. -/
theorem handle_open_file_cases (co : Collab) (tr : Translator)
    (fn cmd : Str) (s : Session) :
    ((handle_open_file co tr fn cmd s).1.status ≠ Status.success ∧
     (handle_open_file co tr fn cmd s).2 = s) ∨
    ((handle_open_file co tr fn cmd s).1.status = Status.success ∧
     ¬ (handle_open_file co tr fn cmd s).2.current_file_content.isEmpty ∧
     (handle_open_file co tr fn cmd s).2.read_position = 0) := by
  unfold handle_open_file
  dsimp only
  split
  · exact Or.inl ⟨(fun h => nomatch h), rfl⟩
  · split
    · rcases transcribe_video_audio_cases co tr (stripStr fn)
        ((extract_language_codes s.translation_language cmd).1.getD s.translation_language)
        ((extract_language_codes s.translation_language cmd).2.getD "en".toList) s with
        ⟨h1, h2⟩ | ⟨h1, hact, h3, h4, h5⟩
      · exact Or.inl ⟨by rw [h1]; decide, h2⟩
      · exact Or.inr ⟨h1, h3, h4⟩
    · split
      · split <;> exact Or.inl ⟨(fun h => nomatch h), rfl⟩
      · split
        · split
          · split
            · rename_i hne
              exact Or.inr ⟨rfl, by simpa using hne, rfl⟩
            · exact Or.inl ⟨(fun h => nomatch h), rfl⟩
          · exact Or.inl ⟨(fun h => nomatch h), rfl⟩
        · exact Or.inl ⟨(fun h => nomatch h), rfl⟩

/-- Claim C6: for every prior session state, handle_reset_command leaves the
session with empty content and cursor 0 and returns a success response with
action stop_read and has_content false. -/
theorem handle_reset_clears_session (s : Session) :
    (handle_reset_command s).2.current_file_content = [] ∧
    (handle_reset_command s).2.read_position = 0 ∧
    (handle_reset_command s).1.status = Status.success ∧
    (handle_reset_command s).1.action = some "stop_read".toList ∧
    (handle_reset_command s).1.has_content = some false :=
  ⟨rfl, rfl, rfl, rfl, rfl⟩

/-- Claim C10: handle_reset_command leaves the target translation language
unchanged for every prior session state; it resets only content and cursor. -/
theorem handle_reset_preserves_target_language (s : Session) :
    (handle_reset_command s).2.translation_language = s.translation_language := rfl

/-- Claim C8: for every code in the registry table, looking up the name the
registry holds for that code resolves back to the same code. -/
theorem registry_name_code_roundtrip :
    ∀ p ∈ LANGUAGES, get_language_code p.2 = some p.1 := by decide

/-- Witness for the registry round trip, at the code es. -/
theorem registry_name_code_roundtrip_witness :
    get_language_code "spanish".toList = some "es".toList :=
  registry_name_code_roundtrip ("es".toList, "spanish".toList) (by decide)

/-- Claim C4, evaluated on the code: on the command "translate to spanish
from french my_video.mp4" the language-pair extraction yields target es and
source fr as the spec states, but the filename extraction yields ".mp4"
rather than "my_video.mp4", because the trigger keyword "video" matches
inside the filename "my_video.mp4" and everything before it is cut away. -/
theorem translate_command_parse_eval :
    extract_language_codes "en".toList
        "translate to spanish from french my_video.mp4".toList
      = (some "es".toList, some "fr".toList) ∧
    extract_filename_from_command
        "translate to spanish from french my_video.mp4".toList
      = some ".mp4".toList := by decide

/-- Claim C9, counterexample: the language-pair extraction is not a function
of the command alone; on the command "translate it" its result differs
between a session whose target language is en and one whose target is fr. -/
theorem extract_language_codes_depends_on_session :
    extract_language_codes "en".toList "translate it".toList ≠
      extract_language_codes "fr".toList "translate it".toList := by decide

/-- Claim C9, amended: the language-pair extraction is a pure deterministic
function of the command string and the session target language together; the
source component never depends on the session, and the target component
either is independent of the session or is exactly the session target
language (the default applied when the command mentions transcribe or
translate without an explicit target); the session is never written. -/
theorem extract_language_codes_target_default_only (lang1 lang2 cmd : Str) :
    (extract_language_codes lang1 cmd).2 = (extract_language_codes lang2 cmd).2 ∧
    ((extract_language_codes lang1 cmd).1 = (extract_language_codes lang2 cmd).1 ∨
     ((extract_language_codes lang1 cmd).1 = some lang1 ∧
      (extract_language_codes lang2 cmd).1 = some lang2)) := by
  unfold extract_language_codes
  dsimp only
  constructor
  · rfl
  · by_cases h1 : ((explicit_target (clean_command_of (lowerStr cmd))).isNone &&
        (containsSub (lowerStr cmd) "transcribe".toList ||
         containsSub (lowerStr cmd) "translate".toList)) = true
    · right
      rw [if_pos h1, if_pos h1]
      exact ⟨rfl, rfl⟩
    · left
      rw [if_neg h1, if_neg h1]

/-- Claim C5: when the target language is not en and the translation
collaborator raises on the current chunk, get_next_chunk still answers
status reading with the untranslated substring and still advances the cursor
to the chunk end. -/
theorem get_next_chunk_translation_degrades (tr : Translator) (size : Nat) (s : Session)
    (h1 : ¬ s.current_file_content.isEmpty)
    (h2 : s.read_position < s.current_file_content.length)
    (h3 : s.translation_language ≠ "en".toList)
    (h4 : tr.translate ((s.current_file_content.drop s.read_position).take
        (min (s.read_position + size) s.current_file_content.length - s.read_position))
        s.translation_language = Except.error ()) :
    (get_next_chunk tr size s).1.status = Status.reading ∧
    (get_next_chunk tr size s).1.chunk =
      (s.current_file_content.drop s.read_position).take
        (min (s.read_position + size) s.current_file_content.length - s.read_position) ∧
    (get_next_chunk tr size s).2.read_position =
      min (s.read_position + size) s.current_file_content.length := by
  unfold get_next_chunk
  dsimp only
  rw [if_neg (by simpa using h1), if_neg (by omega), if_pos h3, h4]
  exact ⟨rfl, rfl, rfl⟩

/-- Witness for the translation-degradation theorem, on the session holding
hello at cursor 1 with target fr and the always-raising translator. -/
theorem get_next_chunk_translation_degrades_witness :
    (get_next_chunk trFail 2 ⟨"hello".toList, 1, "fr".toList⟩).1.status = Status.reading ∧
    (get_next_chunk trFail 2 ⟨"hello".toList, 1, "fr".toList⟩).1.chunk = "el".toList ∧
    (get_next_chunk trFail 2 ⟨"hello".toList, 1, "fr".toList⟩).2.read_position = 3 := by
  have h := get_next_chunk_translation_degrades trFail 2 ⟨"hello".toList, 1, "fr".toList⟩
    (by decide) (by decide) (by decide) rfl
  exact ⟨h.1, by rw [h.2.1]; decide, by rw [h.2.2]; decide⟩

/-- Claim C7: a failing run of either transcription pipeline leaves the
session exactly as it was; the session is mutated only on the path where
every step succeeded. -/
theorem transcription_failure_preserves_session (co : Collab) (tr : Translator)
    (f q t src : Str) (s : Session) :
    ((transcribe_video_audio co tr f t src s).1.status ≠ Status.success →
      (transcribe_video_audio co tr f t src s).2 = s) ∧
    ((transcribe_youtube_audio_real co tr q t src s).1.status ≠ Status.success →
      (transcribe_youtube_audio_real co tr q t src s).2 = s) := by
  constructor
  · intro h
    rcases transcribe_video_audio_cases co tr f t src s with ⟨_, h2⟩ | ⟨hs2, _⟩
    · exact h2
    · exact absurd hs2 h
  · intro h
    rcases transcribe_youtube_cases co tr q t src s with ⟨_, _, h2⟩ | ⟨hs2, _⟩
    · exact h2
    · exact absurd hs2 h

/-- Witness for failure preservation: with every collaborator failing, both
pipelines leave the initial session untouched. -/
theorem transcription_failure_preserves_session_witness :
    (transcribe_video_audio coFail trFail "a.mp4".toList "en".toList "en".toList
        initial_session).2 = initial_session ∧
    (transcribe_youtube_audio_real coFail trFail "cats".toList "en".toList "en".toList
        initial_session).2 = initial_session := by
  constructor
  · exact (transcription_failure_preserves_session coFail trFail "a.mp4".toList
      "cats".toList "en".toList "en".toList initial_session).1 (by decide)
  · exact (transcription_failure_preserves_session coFail trFail "a.mp4".toList
      "cats".toList "en".toList "en".toList initial_session).2 (by decide)

/-- Claim C2: the session invariant (cursor within the content, cursor 0 on
empty content) holds initially and is preserved by loading a file, advancing
a chunk, the control commands, reset, and both transcription loaders. -/
theorem session_invariant_preserved :
    SessionInv initial_session ∧
    (∀ co tr fn cmd s, SessionInv s → SessionInv (handle_open_file co tr fn cmd s).2) ∧
    (∀ tr n s, SessionInv s → SessionInv (get_next_chunk tr n s).2) ∧
    (∀ co cmd s, SessionInv s → SessionInv (handle_control_command co cmd s).2) ∧
    (∀ s, SessionInv (handle_reset_command s).2) ∧
    (∀ co tr f t src s, SessionInv s → SessionInv (transcribe_video_audio co tr f t src s).2) ∧
    (∀ co tr q t src s, SessionInv s →
      SessionInv (transcribe_youtube_audio_real co tr q t src s).2) := by
  refine ⟨⟨Nat.zero_le _, fun _ => rfl⟩, ?_, ?_, ?_, ?_, ?_, ?_⟩
  · intro co tr fn cmd s h
    rcases handle_open_file_cases co tr fn cmd s with ⟨_, h2⟩ | ⟨_, _, h4⟩
    · rwa [h2]
    · exact ⟨by rw [h4]; exact Nat.zero_le _, fun _ => h4⟩
  · intro tr n s h
    unfold get_next_chunk
    dsimp only
    split
    · exact h
    · split
      · exact ⟨Nat.le_refl _, fun hc => by simp at hc; simp [hc]⟩
      · exact ⟨Nat.min_le_right _ _, fun hc => by simp at hc; simp [hc]⟩
  · intro co cmd s h
    obtain ⟨h1, _, h3 | h3⟩ := handle_control_command_frame co cmd s
    · exact ⟨by rw [h1, h3]; exact h.1, fun hc => by rw [h3]; exact h.2 (by rwa [h1] at hc)⟩
    · exact ⟨by rw [h3]; exact Nat.zero_le _, fun _ => h3⟩
  · exact fun s => ⟨Nat.zero_le _, fun _ => rfl⟩
  · intro co tr f t src s h
    rcases transcribe_video_audio_cases co tr f t src s with ⟨_, h2⟩ | ⟨_, _, _, h4, _⟩
    · rwa [h2]
    · exact ⟨by rw [h4]; exact Nat.zero_le _, fun _ => h4⟩
  · intro co tr q t src s h
    rcases transcribe_youtube_cases co tr q t src s with ⟨_, _, h2⟩ | ⟨_, _, h4, _⟩
    · rwa [h2]
    · exact ⟨by rw [h4]; exact Nat.zero_le _, fun _ => h4⟩

/-- Witness for invariant preservation: advancing one chunk from a concrete
invariant-satisfying session keeps the invariant. -/
theorem session_invariant_preserved_witness :
    SessionInv (get_next_chunk trFail 2 ⟨"abc".toList, 1, "en".toList⟩).2 :=
  session_invariant_preserved.2.2.1 trFail 2 ⟨"abc".toList, 1, "en".toList⟩
    ⟨by decide, by decide⟩

/-- Claim C1: from cursor 0 over non-empty content of length L, with chunk
size cs > 0, the i-th call to get_next_chunk finds the cursor at min(i*cs, L);
every call made with its start i*cs below L answers status reading and moves
the cursor to min(i*cs + cs, L), so the produced ranges are consecutive; each
range has size at most cs; every position p below L lies in exactly the range
numbered p / cs; and every call made with the cursor at or past L (the first
such call included) answers status done. -/
theorem reading_chunks_partition (tr : Translator) (cs : Nat) (lang c : Str)
    (hs : 0 < cs) (hc : c ≠ []) :
    (∀ i, (iterChunk tr cs ⟨c, 0, lang⟩ i).current_file_content = c ∧
        (iterChunk tr cs ⟨c, 0, lang⟩ i).read_position = min (i * cs) c.length) ∧
    (∀ i, i * cs < c.length →
        (get_next_chunk tr cs (iterChunk tr cs ⟨c, 0, lang⟩ i)).1.status = Status.reading ∧
        (get_next_chunk tr cs (iterChunk tr cs ⟨c, 0, lang⟩ i)).2.read_position =
          min (i * cs + cs) c.length) ∧
    (∀ i, min (i * cs + cs) c.length - i * cs ≤ cs) ∧
    (∀ p, p < c.length → p / cs * cs ≤ p ∧ p < min (p / cs * cs + cs) c.length ∧
        ∀ j, j * cs ≤ p → p < j * cs + cs → j = p / cs) ∧
    (∀ i, c.length ≤ i * cs →
        (get_next_chunk tr cs (iterChunk tr cs ⟨c, 0, lang⟩ i)).1.status = Status.done) := by
  have key : ∀ i, (iterChunk tr cs ⟨c, 0, lang⟩ i).current_file_content = c ∧
      (iterChunk tr cs ⟨c, 0, lang⟩ i).read_position = min (i * cs) c.length := by
    intro i
    induction i with
    | zero => exact ⟨rfl, by simp [iterChunk]⟩
    | succ n ih =>
      obtain ⟨ih1, ih2⟩ := ih
      show (get_next_chunk tr cs (iterChunk tr cs ⟨c, 0, lang⟩ n)).2.current_file_content = c ∧
        (get_next_chunk tr cs (iterChunk tr cs ⟨c, 0, lang⟩ n)).2.read_position =
          min ((n + 1) * cs) c.length
      unfold get_next_chunk
      dsimp only
      split
      · rename_i hemp
        rw [ih1, List.isEmpty_iff] at hemp
        exact absurd hemp hc
      · split
        · rename_i hemp hge
          rw [ih1, ih2] at hge
          refine ⟨by simpa using ih1, ?_⟩
          show (iterChunk tr cs ⟨c, 0, lang⟩ n).current_file_content.length =
            min ((n + 1) * cs) c.length
          rw [ih1, Nat.succ_mul]
          omega
        · rename_i hemp hlt
          rw [ih1, ih2] at hlt
          refine ⟨by simpa using ih1, ?_⟩
          show min ((iterChunk tr cs ⟨c, 0, lang⟩ n).read_position + cs)
              (iterChunk tr cs ⟨c, 0, lang⟩ n).current_file_content.length =
            min ((n + 1) * cs) c.length
          rw [ih1, ih2, Nat.succ_mul]
          omega
  refine ⟨key, ?_, ?_, ?_, ?_⟩
  · intro i hi
    obtain ⟨k1, k2⟩ := key i
    constructor
    · unfold get_next_chunk
      dsimp only
      rw [if_neg (by rw [k1, List.isEmpty_iff]; simpa using hc),
        if_neg (by rw [k1, k2]; omega)]
    · unfold get_next_chunk
      dsimp only
      rw [if_neg (by rw [k1, List.isEmpty_iff]; simpa using hc),
        if_neg (by rw [k1, k2]; omega)]
      show min ((iterChunk tr cs ⟨c, 0, lang⟩ i).read_position + cs)
          (iterChunk tr cs ⟨c, 0, lang⟩ i).current_file_content.length =
        min (i * cs + cs) c.length
      rw [k1, k2]
      omega
  · intro i
    omega
  · intro p hp
    refine ⟨Nat.div_mul_le_self p cs, ?_, ?_⟩
    · have h1 := Nat.lt_div_mul_add hs (a := p)
      omega
    · intro j hj1 hj2
      exact (Nat.div_eq_of_lt_le hj1 (by rw [Nat.succ_mul]; exact hj2)).symm
  · intro i hi
    obtain ⟨k1, k2⟩ := key i
    unfold get_next_chunk
    dsimp only
    rw [if_neg (by rw [k1, List.isEmpty_iff]; simpa using hc),
      if_pos (by rw [k1, k2]; omega)]

/-- Witness for the chunk-partition theorem: on the five-character content
abcde with chunk size 2, the second call reads (the range starting at 2) and
after three calls the cursor sits at 5, where a further call answers done. -/
theorem reading_chunks_partition_witness :
    (get_next_chunk trFail 2 (iterChunk trFail 2 ⟨"abcde".toList, 0, "en".toList⟩ 1)).1.status
        = Status.reading ∧
    (iterChunk trFail 2 ⟨"abcde".toList, 0, "en".toList⟩ 3).read_position = min (3 * 2) 5 ∧
    (get_next_chunk trFail 2 (iterChunk trFail 2 ⟨"abcde".toList, 0, "en".toList⟩ 3)).1.status
        = Status.done := by
  have h := reading_chunks_partition trFail 2 "en".toList "abcde".toList
    (by decide) (by decide)
  refine ⟨(h.2.1 1 (by decide)).1, ?_, h.2.2.2.2 3 (by decide)⟩
  have h2 := (h.1 3).2
  simpa using h2

/-- Claim C3, counterexample: on the command "transcribe cats on youtube"
with pytube missing and content abc already loaded, the dispatcher answers
has_content false although the session content is still non-empty, because
the YouTube-transcription branch attaches whether a new script was loaded
rather than whether the session holds content. -/
theorem command_handler_has_content_mismatch :
    (command_handler coYtFail trFail "transcribe cats on youtube".toList
        ⟨"abc".toList, 0, "en".toList⟩).1.has_content = some false ∧
    ¬ (command_handler coYtFail trFail "transcribe cats on youtube".toList
        ⟨"abc".toList, 0, "en".toList⟩).2.current_file_content.isEmpty := by decide

/-- Claim C3, amended: every dispatcher branch attaches has_content equal to
whether the session content is non-empty when the response is returned,
except the YouTube-transcription branch (command mentioning transcribe or
translate together with youtube, with a non-empty extracted query), which
attaches whether its response action is start_read — false on a failed
transcription even when earlier-loaded content is still present. -/
theorem command_handler_has_content_amended (co : Collab) (tr : Translator)
    (q0 : Str) (s : Session) :
    (command_handler co tr q0 s).1.has_content =
      some (if ((containsSub (lowerStr (stripStr q0)) "transcribe".toList = true ∨
                 containsSub (lowerStr (stripStr q0)) "translate".toList = true) ∧
                containsSub (lowerStr (stripStr q0)) "youtube".toList = true) ∧
               (extract_youtube_query (lowerStr (stripStr q0))).isSome = true then
              (command_handler co tr q0 s).1.action == some "start_read".toList
            else !(command_handler co tr q0 s).2.current_file_content.isEmpty) := by
  unfold command_handler
  dsimp only
  split
  · rename_i hmem
    simp only [reset_phrases, List.mem_cons, List.not_mem_nil, or_false] at hmem
    rcases hmem with h | h | h | h <;> rw [h] <;> rfl
  · rename_i hmem
    split
    · rename_i r heq
      by_cases hcond : ((containsSub (lowerStr (stripStr q0)) "play".toList ||
          containsSub (lowerStr (stripStr q0)) "watch".toList) &&
          containsSub (lowerStr (stripStr q0)) "youtube".toList &&
          !containsSub (lowerStr (stripStr q0)) "transcribe".toList &&
          !containsSub (lowerStr (stripStr q0)) "translate".toList) = true
      · have h' := hcond
        simp only [Bool.and_eq_true, Bool.not_eq_true'] at h'
        obtain ⟨⟨⟨hpw, hyt⟩, htr⟩, htl⟩ := h'
        have hnc : ¬(((containsSub (lowerStr (stripStr q0)) "transcribe".toList = true ∨
            containsSub (lowerStr (stripStr q0)) "translate".toList = true) ∧
            containsSub (lowerStr (stripStr q0)) "youtube".toList = true) ∧
            (extract_youtube_query (lowerStr (stripStr q0))).isSome = true) := by
          intro hcontra
          rcases hcontra.1.1 with h | h
          · rw [htr] at h; exact absurd h (by decide)
          · rw [htl] at h; exact absurd h (by decide)
        rw [if_neg hnc]
      · rw [if_neg hcond] at heq
        exact absurd heq (by simp)
    · split
      · rename_i hb3
        simp only [Bool.and_eq_true, Bool.or_eq_true] at hb3
        split
        · rename_i hquery
          have hnq : ¬(((containsSub (lowerStr (stripStr q0)) "transcribe".toList = true ∨
              containsSub (lowerStr (stripStr q0)) "translate".toList = true) ∧
              containsSub (lowerStr (stripStr q0)) "youtube".toList = true) ∧
              (extract_youtube_query (lowerStr (stripStr q0))).isSome = true) := by
            intro hcontra
            rw [hquery] at hcontra
            exact absurd hcontra.2 (by decide)
          rw [if_neg hnq]
        · rename_i query hquery
          rw [if_pos ⟨hb3, by simp [hquery]⟩]
      · rename_i hb3
        simp only [Bool.not_eq_true] at hb3
        have hnc : ¬(((containsSub (lowerStr (stripStr q0)) "transcribe".toList = true ∨
            containsSub (lowerStr (stripStr q0)) "translate".toList = true) ∧
            containsSub (lowerStr (stripStr q0)) "youtube".toList = true) ∧
            (extract_youtube_query (lowerStr (stripStr q0))).isSome = true) := by
          intro hcontra
          obtain ⟨⟨hab, hc2⟩, _⟩ := hcontra
          rcases hab with h | h <;> rw [h, hc2] at hb3 <;> simp at hb3
        split
        · rw [if_neg hnc]
        · split
          · rename_i fn hfb
            rcases handle_open_file_cases co tr fn (lowerStr (stripStr q0)) s with
              ⟨hns, hunch⟩ | ⟨hsucc, hne, _⟩
            · rw [if_neg hns, if_neg hnc, hunch]
            · rw [if_pos hsucc, if_neg hnc]
              simp only [Bool.not_eq_true] at hne
              rw [hne]
              rfl
          · split
            · obtain ⟨hcon, _⟩ :=
                handle_translation_command_frame (lowerStr (stripStr q0)) s
              first
                | rw [if_neg hnc, hcon]
                | rw [hcon]
            · split
              · obtain ⟨hcon, _, _⟩ := handle_control_command_frame co
                  (if lowerStr (stripStr q0) = "continue".toList then "resume".toList
                   else lowerStr (stripStr q0)) s
                first
                  | rw [if_neg hnc, hcon]
                  | rw [hcon]
              · first
                  | rw [if_neg hnc]
                  | rfl
